import Mathlib

/-!
Shallow embedding of the BFCM dashboard data pipeline (src/src/App.jsx and
the near-duplicate variant src/unnamed/part_000): CSV parsing, hour
bucketing, multi-source hourly aggregation, range filtering, summary
statistics, and the retrying fetch loop.  JavaScript strings are modelled
as `List Char` / `String`, JS numbers carrying integer data as `Int`, and
JS numbers carrying ratios (the efficiency statistic) as `Rat`.
-/

namespace BFCM

/-! ### JS string primitives

The pipeline only uses `trim`, `split` on a single-character separator,
`replace(/"/g, '')` and `parseInt(_, 10)`; these are modelled character by
character with ECMAScript semantics. -/

/-- ASCII whitespace recognised by JS `trim` (the data never contains the
exotic Unicode space characters, so the ASCII set is faithful here). -/
def jsIsWS (c : Char) : Bool :=
  c = ' ' || c = '\t' || c = '\n' || c = '\r' || c = '\x0b' || c = '\x0c'

/-- JS `String.prototype.trim`: strip whitespace from both ends. -/
def jsTrim (s : List Char) : List Char :=
  ((s.dropWhile jsIsWS).reverse.dropWhile jsIsWS).reverse

/-- JS `String.prototype.split` with a one-character separator:
`"".split(sep) = [""]` and `",".split(',') = ["", ""]`. -/
def jsSplit (sep : Char) : List Char → List (List Char)
  | [] => [[]]
  | c :: cs =>
    if c = sep then [] :: jsSplit sep cs
    else
      match jsSplit sep cs with
      | [] => [[c]]
      | h :: t => (c :: h) :: t

/-- JS `str.replace(/"/g, '')`: delete every double-quote character. -/
def removeQuotes (s : List Char) : List Char :=
  s.filter (fun c => c ≠ '"')

/-- Digits-to-number accumulator for `parseInt`. -/
def digitsToNat (ds : List Char) : Nat :=
  ds.foldl (fun acc c => acc * 10 + (c.toNat - '0'.toNat)) 0

/-- JS `parseInt(s, 10)`: skip leading whitespace, read an optional sign,
then the longest digit prefix; `none` models `NaN` (no digits). -/
def jsParseInt (s : List Char) : Option Int :=
  let s1 := s.dropWhile jsIsWS
  let signAndRest : Int × List Char :=
    match s1 with
    | '-' :: rest => (-1, rest)
    | '+' :: rest => (1, rest)
    | _ => (1, s1)
  let digits := signAndRest.2.takeWhile Char.isDigit
  if digits.isEmpty then none
  else some (signAndRest.1 * (digitsToNat digits : Int))

/-! ### CsvRecordParser (`parseCSV`) -/

/-- One parsed CSV line: `{ timestamp: string, value: integer }`. -/
structure RawRecord where
  timestamp : String
  value : Int
deriving DecidableEq, Repr

/-- `parseCSV` from App.jsx: skip the header line, split each remaining
line on commas, strip quotes and whitespace from the first two fields,
coerce a non-numeric value to 0, and drop rows whose timestamp is empty
(which also covers lines with fewer than two fields). -/
def parseCSV (csvText : String) : List RawRecord :=
  if csvText = "" then []
  else
    let lines := jsSplit '\n' (jsTrim csvText.data)
    if lines.length < 2 then []
    else
      ((lines.drop 1).map (fun line =>
        let parts := jsSplit ',' line
        if parts.length < 2 then { timestamp := "", value := 0 }
        else
          let timestamp := jsTrim (removeQuotes (parts.getD 0 []))
          let value := jsParseInt (jsTrim (removeQuotes (parts.getD 1 [])))
          { timestamp := String.mk timestamp, value := value.getD 0 })).filter
        (fun item => item.timestamp ≠ "")

/-! ### HourBucketer (`getHourlyKey`) and the host date functions

The source calls the host's `new Date(timestampStr)`, `setMinutes(0,0,0,0)`,
`getTime`, `getMonth`, `getDate` and `getHours`.  The feed's timestamps are
ISO-8601 UTC instants (`YYYY-MM-DDTHH:MM:SSZ`), and the runtime timezone is
taken to be UTC, so the host date is modelled as a civil date-time record
with an epoch-millisecond conversion; any string not in that format parses
to `none` (JS `Invalid Date`). -/

/-- Civil UTC date-time, the model of a valid JS `Date`. -/
structure JSDate where
  year : Int
  month : Nat
  day : Nat
  hour : Nat
  minute : Nat
  second : Nat
deriving DecidableEq, Repr

/-- Leap-year rule of the proleptic Gregorian calendar. -/
def isLeap (y : Int) : Bool :=
  (y % 4 = 0 && y % 100 ≠ 0) || y % 400 = 0

/-- Days in a month, for validating parsed dates. -/
def daysInMonth (y : Int) (m : Nat) : Nat :=
  if m = 2 then (if isLeap y then 29 else 28)
  else if m = 4 || m = 6 || m = 9 || m = 11 then 30
  else 31

/-- Days from 1970-01-01 to the given civil date (Gregorian), the standard
`days_from_civil` computation. -/
def daysFromCivil (y : Int) (m d : Nat) : Int :=
  let y' : Int := if m ≤ 2 then y - 1 else y
  let era : Int := y' / 400
  let yoe : Int := y' - era * 400
  let mp : Int := if m > 2 then (m : Int) - 3 else (m : Int) + 9
  let doy : Int := (153 * mp + 2) / 5 + (d : Int) - 1
  let doe : Int := yoe * 365 + yoe / 4 - yoe / 100 + doy
  era * 146097 + doe - 719468

/-- `Date.prototype.getTime`: epoch milliseconds of a civil UTC date-time. -/
def toEpoch (d : JSDate) : Int :=
  daysFromCivil d.year d.month d.day * 86400000
    + (d.hour : Int) * 3600000 + (d.minute : Int) * 60000 + (d.second : Int) * 1000

/-- Read exactly `n` decimal digits. -/
def readDigits (n : Nat) (s : List Char) : Option (Nat × List Char) :=
  let ds := s.take n
  if ds.length = n && ds.all Char.isDigit then some (digitsToNat ds, s.drop n)
  else none

/-- Model of the host `new Date(str)` on the feed's timestamp format
`YYYY-MM-DDTHH:MM:SSZ` (UTC); anything else is `none` (`Invalid Date`).
Out-of-range components are rejected, as the host parser does. -/
def isoParse (s : List Char) : Option JSDate := do
  let (y, s) ← readDigits 4 s
  let s ← if s ≠ [] ∧ s.headD ' ' = '-' then pure (s.drop 1) else none
  let (mo, s) ← readDigits 2 s
  let s ← if s ≠ [] ∧ s.headD ' ' = '-' then pure (s.drop 1) else none
  let (d, s) ← readDigits 2 s
  let s ← if s ≠ [] ∧ s.headD ' ' = 'T' then pure (s.drop 1) else none
  let (hh, s) ← readDigits 2 s
  let s ← if s ≠ [] ∧ s.headD ' ' = ':' then pure (s.drop 1) else none
  let (mi, s) ← readDigits 2 s
  let s ← if s ≠ [] ∧ s.headD ' ' = ':' then pure (s.drop 1) else none
  let (ss, s) ← readDigits 2 s
  if s = ['Z'] ∧ 1 ≤ mo ∧ mo ≤ 12 ∧ 1 ≤ d ∧ d ≤ daysInMonth (y : Int) mo
      ∧ hh ≤ 23 ∧ mi ≤ 59 ∧ ss ≤ 59 then
    pure { year := (y : Int), month := mo, day := d, hour := hh, minute := mi, second := ss }
  else none

/-- `date.setMinutes(0, 0, 0, 0)`: truncate to the start of the hour. -/
def truncHour (d : JSDate) : JSDate :=
  { d with minute := 0, second := 0 }

/-- The twelve month abbreviations used by `getHourlyKey`. -/
def months : List String :=
  ["Jan", "Feb", "Mar", "Apr", "May", "Jun", "Jul", "Aug", "Sep", "Oct", "Nov", "Dec"]

/-- `String.prototype.padStart(2, '0')` on a number's decimal rendering. -/
def pad2 (n : Nat) : String :=
  if n < 10 then "0" ++ toString n else toString n

/-- `getHourlyKey` (part_000 variant): parse the timestamp, truncate to the
hour, and return both the `"MMM-DD HH:00"` label and the numeric sort key;
`none` when the timestamp does not parse. -/
def getHourlyKey (timestampStr : List Char) : Option (String × Int) :=
  match isoParse timestampStr with
  | none => none
  | some date =>
    let d := truncHour date
    let monthName := months.getD (d.month - 1) ""
    some (monthName ++ "-" ++ pad2 d.day ++ " " ++ pad2 d.hour ++ ":00", toEpoch d)

/-! ### MultiSeriesAggregator (`processAllFiles`) -/

/-- The `key` fields of `ALL_CSV_FILES`, in configuration order. -/
def allKeys : List String := ["orders", "labels", "packers", "pickers"]

/-- One hourly bucket row: the JS object
`{ hour, sortTime, orders: 0, labels: 0, packers: 0, pickers: 0 }` with its
per-source counters kept as an insertion-ordered association list, so that
presence / absence of a source key is observable (JS object keys). -/
structure HourlyRow where
  hour : String
  sortTime : Int
  values : List (String × Int)
deriving DecidableEq, Repr

/-- First-match association lookup (JS `Map.get` / object property read). -/
def assocFind {β : Type} (l : List (String × β)) (k : String) : Option β :=
  match l.find? (fun p => p.1 = k) with
  | none => none
  | some p => some p.2

/-- `Map.set` on an existing key: replace its value, keeping its position. -/
def assocReplace {β : Type} (l : List (String × β)) (k : String) (v : β) :
    List (String × β) :=
  l.map (fun p => if p.1 = k then (k, v) else p)

/-- `row[key] += v`: add `v` into the entry for `key`, leaving other
entries and the key order unchanged (every configured key is present from
initialization, so the missing-key corner of JS `+=` cannot arise). -/
def addVal (l : List (String × Int)) (k : String) (v : Int) : List (String × Int) :=
  l.map (fun p => if p.1 = k then (p.1, p.2 + v) else p)

/-- `...Object.fromEntries(ALL_CSV_FILES.map(f => [f.key, 0]))`: every
configured source key initialized to 0. -/
def initValues : List (String × Int) :=
  allKeys.map (fun k => (k, 0))

/-- The hour-keyed aggregation map: a JS `Map` whose keys follow insertion
order, modelled as an association list from bucket label to row. -/
abbrev HourMap := List (String × HourlyRow)

/-- `Map.get` on the hour map. -/
def mapFind (m : HourMap) (k : String) : Option HourlyRow :=
  assocFind m k

/-- `Map.set` on an existing key: replace the row in place. -/
def mapUpdate (m : HourMap) (k : String) (row : HourlyRow) : HourMap :=
  assocReplace m k row

/-- `currentHour[key] += item.value; map.set(...)`: add the record's value
into the entry of the row stored under `hourlyKey` (a no-op on a map that
has no such row, which cannot happen after the creation step). -/
def upsertInto (m1 : HourMap) (key hourlyKey : String) (v : Int) : HourMap :=
  match mapFind m1 hourlyKey with
  | none => m1
  | some currentHour =>
    mapUpdate m1 hourlyKey
      { currentHour with values := addVal currentHour.values key v }

/-- The map-manipulating tail of the record loop: create the row for
`hourlyKey` with all source keys zeroed if the label is new, then add the
record's value into the row's entry for the record's source key. -/
def upsertRow (m : HourMap) (key hourlyKey : String) (sortTime : Int) (v : Int) : HourMap :=
  upsertInto
    (if (mapFind m hourlyKey).isSome then m
     else m ++ [(hourlyKey,
       { hour := hourlyKey, sortTime := sortTime, values := initValues })])
    key hourlyKey v

/-- The body of the record loop in `processAllFiles`: parse the record's
timestamp (drop it when the host date is invalid), truncate to the hour to
get `sortTime` and the bucket label, then upsert the record's value into
the hour map under that label. -/
def processRecord (m : HourMap) (key : String) (item : RawRecord) : HourMap :=
  match isoParse item.timestamp.data with
  | none => m
  | some dateObj =>
    let t := truncHour dateObj
    let sortTime := toEpoch t
    match getHourlyKey item.timestamp.data with
    | none => m
    | some hk => upsertRow m key hk.1 sortTime item.value

/-- Aggregate the parsed records of every source into the hour map, in the
source order of `ALL_CSV_FILES` and the record order within each source. -/
def aggregateAll (sources : List (String × List RawRecord)) : HourMap :=
  sources.foldl (fun m kr => kr.2.foldl (fun m item => processRecord m kr.1 item) m) []

/-- Comparator of the final `.sort((a, b) => a.sortTime - b.sortTime)`. -/
def rowLE (a b : HourlyRow) : Prop := a.sortTime ≤ b.sortTime

instance : DecidableRel rowLE := fun x y => inferInstanceAs (Decidable (x.sortTime ≤ y.sortTime))

instance : IsTotal HourlyRow rowLE := ⟨fun a b => le_total a.sortTime b.sortTime⟩

instance : IsTrans HourlyRow rowLE := ⟨fun _ _ _ h1 h2 => le_trans h1 h2⟩

/-- `processAllFiles` after all fetches settle: aggregate every source's
parsed records, then sort the map's values ascending by `sortTime`
(a stable sort, as JS `Array.prototype.sort` is). -/
def processAllFiles (sources : List (String × List RawRecord)) : List HourlyRow :=
  List.insertionSort rowLE ((aggregateAll sources).map Prod.snd)

/-- `processAllFiles` from CSV text payloads, parsing each with `parseCSV`. -/
def processAllCSV (payloads : List (String × String)) : List HourlyRow :=
  processAllFiles (payloads.map (fun p => (p.1, parseCSV p.2)))

/-! ### RangeFilter (`filteredData`) -/

/-- `filteredData`: anchor at the last row's `sortTime`, subtract
`selectedRangeDays` in milliseconds, and keep the rows at or after that
lower bound; an empty series stays empty. -/
def filteredData (data : List HourlyRow) (selectedRangeDays : Nat) : List HourlyRow :=
  match data.getLast? with
  | none => []
  | some lastRow =>
    let maxDate := lastRow.sortTime
    let rangeInMs : Int := (selectedRangeDays : Int) * 24 * 60 * 60 * 1000
    let minDate := maxDate - rangeInMs
    data.filter (fun item => minDate ≤ item.sortTime)

/-! ### StatsEngine (the `aggregates` computation of `SummaryWidget`) -/

/-- `item.<key> || 0`: a row's counter for one source, 0 when absent. -/
def rowGet (item : HourlyRow) (k : String) : Int :=
  (assocFind item.values k).getD 0

/-- `(item.packers || 0) + (item.pickers || 0)`. -/
def laborOf (item : HourlyRow) : Int := rowGet item "packers" + rowGet item "pickers"

/-- `item.labels || 0`. -/
def labelsOf (item : HourlyRow) : Int := rowGet item "labels"

/-- `item.orders || 0`. -/
def ordersOf (item : HourlyRow) : Int := rowGet item "orders"

/-- The `hourlyEfficiency` array: one `labels / labor` ratio pushed per row
whose labor is positive, in row order; zero-labor rows push nothing. -/
def hourlyEfficiency (data : List HourlyRow) : List Rat :=
  data.foldl (fun acc item =>
    let labor := laborOf item
    if labor > 0 then acc ++ [(labelsOf item : Rat) / (labor : Rat)] else acc) []

/-- The `hourlyOrders` array: every row's orders value, in row order. -/
def hourlyOrders (data : List HourlyRow) : List Rat :=
  data.map (fun item => (ordersOf item : Rat))

/-- The `hourlyLabels` array. -/
def hourlyLabels (data : List HourlyRow) : List Rat :=
  data.map (fun item => (labelsOf item : Rat))

/-- The `hourlyLabor` array. -/
def hourlyLabor (data : List HourlyRow) : List Rat :=
  data.map (fun item => (laborOf item : Rat))

/-- Inverse civil-from-days (Gregorian): the UTC calendar date holding the
given day number relative to 1970-01-01, used to model
`new Date(ms).toISOString().split('T')[0]`. -/
def civilFromDays (z0 : Int) : Int × Nat × Nat :=
  let z : Int := z0 + 719468
  let era : Int := z / 146097
  let doe : Int := z - era * 146097
  let yoe : Int := (doe - doe / 1460 + doe / 36524 - doe / 146096) / 365
  let y : Int := yoe + era * 400
  let doy : Int := doe - (365 * yoe + yoe / 4 - yoe / 100)
  let mp : Int := (5 * doy + 2) / 153
  let d : Int := doy - (153 * mp + 2) / 5 + 1
  let m : Int := if mp < 10 then mp + 3 else mp - 9
  ((if m ≤ 2 then y + 1 else y), m.toNat, d.toNat)

/-- `new Date(ms).toISOString().split('T')[0]`: the UTC `YYYY-MM-DD` key of
an epoch-millisecond instant. -/
def epochDateKey (ms : Int) : String :=
  let c := civilFromDays (ms / 86400000)
  toString c.1 ++ "-" ++ pad2 c.2.1 ++ "-" ++ pad2 c.2.2

/-- Per-calendar-day accumulator `{ orders: 0, labels: 0 }`. -/
structure DayCounts where
  orders : Int
  labels : Int
deriving DecidableEq, Repr

/-- One step of the daily aggregation inside the row loop: rows whose
`sortTime` is falsy (exactly 0) are skipped by the `if (item.sortTime)`
guard; otherwise the row's orders and labels are added into the entry for
its UTC calendar date, created on first sight. -/
def dailyStep (m : List (String × DayCounts)) (item : HourlyRow) :
    List (String × DayCounts) :=
  if item.sortTime ≠ 0 then
    let dateKey := epochDateKey item.sortTime
    let m1 :=
      if (assocFind m dateKey).isSome then m
      else m ++ [(dateKey, { orders := 0, labels := 0 })]
    match assocFind m1 dateKey with
    | none => m1
    | some currentDay =>
      assocReplace m1 dateKey
        { orders := currentDay.orders + ordersOf item,
          labels := currentDay.labels + labelsOf item }
  else m

/-- One entry of `dailyAggregates`: `{ date, orders, labels }`. -/
structure DayAgg where
  date : String
  orders : Int
  labels : Int
deriving DecidableEq, Repr

/-- `dailyAggregates`: the daily map built over all rows, flattened in
insertion order. -/
def dailyAggregates (data : List HourlyRow) : List DayAgg :=
  (data.foldl dailyStep []).map (fun p =>
    { date := p.1, orders := p.2.orders, labels := p.2.labels })

/-- English weekday names, indexed with Sunday = 0. -/
def weekdays : List String :=
  ["Sunday", "Monday", "Tuesday", "Wednesday", "Thursday", "Friday", "Saturday"]

/-- Model of `Intl.DateTimeFormat('en-US', { weekday: 'long', year:
'numeric', month: 'numeric', day: 'numeric' })` applied to the
`new Date(y, m - 1, d)` reconstructed from a `YYYY-MM-DD` day key
(`day.date.split('-').map(Number)`), e.g. `"Friday, 11/29/2024"`. -/
def formatDate (dateKey : String) : String :=
  let nums := (jsSplit '-' dateKey.data).map (fun f => (jsParseInt f).getD 0)
  let y := nums.getD 0 0
  let m := nums.getD 1 0
  let d := nums.getD 2 0
  let wd := weekdays.getD ((daysFromCivil y m.toNat d.toNat + 4) % 7).toNat ""
  wd ++ ", " ++ toString m ++ "/" ++ toString d ++ "/" ++ toString y

/-- A "peak day" record `{ count, date }`. -/
structure PeakDay where
  count : Int
  date : String
deriving DecidableEq, Repr

/-- One step of the two peak-day folds: a day replaces the current maximum
for a metric only when its sum is strictly greater than the running count. -/
def peakStep (acc : PeakDay × PeakDay) (day : DayAgg) : PeakDay × PeakDay :=
  let formattedDate := formatDate day.date
  let nextOrders :=
    if day.orders > acc.1.count then { count := day.orders, date := formattedDate }
    else acc.1
  let nextLabels :=
    if day.labels > acc.2.count then { count := day.labels, date := formattedDate }
    else acc.2
  (nextOrders, nextLabels)

/-- The two peak-day folds, both starting from `{ count: 0, date: 'N/A' }`. -/
def maxDailyPeaks (days : List DayAgg) : PeakDay × PeakDay :=
  days.foldl peakStep ({ count := 0, date := "N/A" }, { count := 0, date := "N/A" })

/-- `{min, max, avg}` of one hourly metric. -/
structure Stats where
  min : Rat
  max : Rat
  avg : Rat
deriving DecidableEq, Repr

/-- `getStats`: `{0, 0, 0}` on an empty array, otherwise the fold minimum,
fold maximum and `sum / length`. -/
def getStats : List Rat → Stats
  | [] => { min := 0, max := 0, avg := 0 }
  | a :: as =>
    { min := as.foldl Min.min a,
      max := as.foldl Max.max a,
      avg := (a :: as).foldl (· + ·) 0 / ((a :: as).length : Rat) }

/-- The full `aggregates` record computed by `SummaryWidget`. -/
structure Aggregates where
  maxDailyOrders : PeakDay
  maxDailyLabels : PeakDay
  labelsPerLabor : Stats
  ordersStats : Stats
  labelsStats : Stats
  laborStats : Stats
deriving DecidableEq, Repr

/-- `SummaryWidget`'s `aggregates` computation over the (filtered) series:
default/`'N/A'` values on an empty series, otherwise daily peaks plus
hourly min/max/average statistics, with the efficiency series restricted to
rows of positive labor. -/
def summaryAggregates (data : List HourlyRow) : Aggregates :=
  if data.isEmpty then
    { maxDailyOrders := { count := 0, date := "N/A" },
      maxDailyLabels := { count := 0, date := "N/A" },
      labelsPerLabor := { min := 0, max := 0, avg := 0 },
      ordersStats := { min := 0, max := 0, avg := 0 },
      labelsStats := { min := 0, max := 0, avg := 0 },
      laborStats := { min := 0, max := 0, avg := 0 } }
  else
    let peaks := maxDailyPeaks (dailyAggregates data)
    { maxDailyOrders := peaks.1,
      maxDailyLabels := peaks.2,
      labelsPerLabor := getStats (hourlyEfficiency data),
      ordersStats := getStats (hourlyOrders data),
      labelsStats := getStats (hourlyLabels data),
      laborStats := getStats (hourlyLabor data) }

/-! ### RetryingFetcher (`fetchWithRetry`)

The network is modelled as a schedule of per-attempt outcomes: attempt `i`
either yields a text payload or fails (a rejected `fetch` or a non-`ok`
HTTP status, both of which reach the same `catch`).  The embedding returns
the overall outcome together with the list of backoff delays actually
awaited, in chronological order. -/

/-- `MAX_RETRIES` from App.jsx. -/
def maxRetries : Nat := 3

/-- `INITIAL_DELAY_MS` from App.jsx. -/
def initialDelayMs : Nat := 1000

/-- Outcome of one attempt: the payload text, or the message of the error
thrown inside the `try` block. -/
inductive AttemptResult where
  | success (payload : String)
  | failure (err : String)
deriving DecidableEq, Repr

/-- Which error a run of `fetchWithRetry` ultimately throws: App.jsx builds
a fresh `Failed to fetch <name> after <MAX_RETRIES> attempts.` message,
while the part_000 variant rethrows the last attempt's own error. -/
inductive ThrowStyle where
  | summaryMessage
  | rethrowLast
deriving DecidableEq, Repr

/-- The retry loop of `fetchWithRetry`, recursing on the number of
remaining iterations (so `remaining + 1 = retries - i` inside the loop): a
successful attempt returns its payload at once; a failed attempt on the
last index (`i === retries - 1`, i.e. no iterations remain after this one)
throws with no further delay; any other failed attempt awaits the current
delay and doubles it.  The `remaining = 0` base case, reachable only when
`retries = 0`, models JS falling out of the loop and returning
`undefined`. -/
def fetchLoop (style : ThrowStyle) (attempt : Nat → AttemptResult) (name : String) :
    (remaining i delay : Nat) → Except String String × List Nat
  | 0, _, _ => (.error "undefined", [])
  | remaining + 1, i, delay =>
    match attempt i with
    | .success payload => (.ok payload, [])
    | .failure err =>
      if remaining = 0 then
        match style with
        | .summaryMessage =>
          (.error ("Failed to fetch " ++ name ++ " after " ++ toString maxRetries
            ++ " attempts."), [])
        | .rethrowLast => (.error err, [])
      else
        let rest := fetchLoop style attempt name remaining (i + 1) (delay * 2)
        (rest.1, delay :: rest.2)

/-- `fetchWithRetry(url, name)` from App.jsx (summary-message throw). -/
def fetchWithRetry (attempt : Nat → AttemptResult) (name : String)
    (retries : Nat := maxRetries) : Except String String × List Nat :=
  fetchLoop .summaryMessage attempt name retries 0 initialDelayMs

/-- `fetchWithRetry(url, name)` from part_000 (rethrows the last error). -/
def fetchWithRetryV2 (attempt : Nat → AttemptResult) (name : String)
    (retries : Nat := 3) : Except String String × List Nat :=
  fetchLoop .rethrowLast attempt name retries 0 1000

end BFCM

example :
    BFCM.parseCSV "header\n\"2024-01-01T00:00:00Z\",\"5\"\nbadrow\n,\n2024-01-01T01:00:00Z,notanumber\n" =
      [{ timestamp := "2024-01-01T00:00:00Z", value := 5 },
       { timestamp := "2024-01-01T01:00:00Z", value := 0 }] := by decide

example : BFCM.parseCSV "" = [] := by decide
example : BFCM.parseCSV "just a header" = [] := by decide
example : BFCM.parseCSV "h\n2024-01-01T00:00:00Z,-7,extra" =
    [{ timestamp := "2024-01-01T00:00:00Z", value := -7 }] := by decide

-- scratch sanity checks on the date model
example : BFCM.daysFromCivil 1970 1 1 = 0 := by decide
example : BFCM.daysFromCivil 2024 1 1 = 19723 := by decide
example : BFCM.getHourlyKey "2024-06-01T10:15:00Z".data =
    some ("Jun-01 10:00", 1717236000000) := by decide
example : BFCM.getHourlyKey "2023-06-01T10:00:00Z".data =
    some ("Jun-01 10:00", 1685613600000) := by decide
example : BFCM.getHourlyKey "oops".data = none := by decide
example : BFCM.isoParse "2024-02-30T00:00:00Z".data = none := by decide

-- scratch: the spec's end-to-end scenario
example :
    BFCM.processAllCSV
      [("orders", "h\n2024-06-01T10:15:00Z,7"), ("labels", "h\n2024-06-01T10:50:00Z,3")] =
    [{ hour := "Jun-01 10:00", sortTime := 1717236000000,
       values := [("orders", 7), ("labels", 3), ("packers", 0), ("pickers", 0)] }] := by decide

-- scratch: date key and formatter sanity
example : BFCM.epochDateKey 1717236000000 = "2024-06-01" := by decide
example : BFCM.formatDate "2024-11-29" = "Friday, 11/29/2024" := by decide
example :
    BFCM.fetchWithRetry (fun i => if i < 2 then .failure "boom" else .success "payload")
      "Orders" = (.ok "payload", [1000, 2000]) := rfl
example :
    BFCM.fetchWithRetry (fun _ => .failure "HTTP Error 500: Internal Server Error")
      "Orders" = (.error "Failed to fetch Orders after 3 attempts.", [1000, 2000]) := rfl

namespace BFCM

/-! ## Claims about the RangeFilter -/

/-- One row of the P5 example series: midnight UTC of 2024-01-`n`. -/
def dayRow (n : Nat) : HourlyRow :=
  { hour := "Jan-" ++ pad2 n ++ " 00:00",
    sortTime := toEpoch { year := 2024, month := 1, day := n, hour := 0, minute := 0, second := 0 },
    values := initValues }

/-- The P5 example series: one row per day for 2024-01-01 .. 2024-01-10. -/
def janSeries : List HourlyRow := (List.range 10).map (fun k => dayRow (k + 1))

/-- Claim C1 as stated is false: on the series with one row per day for
2024-01-01 .. 2024-01-10 and a 3-day window, `filteredData` does not return
only the rows for 2024-01-08 .. 2024-01-10. -/
theorem window_example_counterexample :
    filteredData janSeries 3 ≠ [dayRow 8, dayRow 9, dayRow 10] := by decide

/-- Claim C1 (amended): the window anchors to the last row's `sortKey`,
and on the P5 example series with a 3-day window the result is exactly the
rows for 2024-01-07 .. 2024-01-10 — the row lying exactly three days
before the anchor is included, because the bound is an inclusive `≥`. -/
theorem window_example_amended :
    filteredData janSeries 3 = [dayRow 7, dayRow 8, dayRow 9, dayRow 10] := by decide

/-- Claim C2: the range filter keeps exactly the rows whose `sortTime` is
at least the last row's `sortTime` minus `d` × 86,400,000 ms, preserves
the original order (the result is a sublist of the input), and maps an
empty series to an empty series; the anchor is the series' own last row
and no wall-clock input exists. -/
theorem range_filter_spec (series : List HourlyRow) (d : Nat) :
    filteredData [] d = []
    ∧ (filteredData series d).Sublist series
    ∧ ∀ lastRow, series.getLast? = some lastRow →
        ∀ r, r ∈ filteredData series d ↔
          r ∈ series ∧ lastRow.sortTime - (d : Int) * 86400000 ≤ r.sortTime := by
  refine ⟨rfl, ?_, ?_⟩
  · unfold filteredData
    cases series.getLast? with
    | none => exact List.nil_sublist _
    | some lastRow => exact List.filter_sublist _
  · intro lastRow hlast r
    unfold filteredData
    rw [hlast]
    simp only [List.mem_filter, decide_eq_true_eq]
    constructor
    · rintro ⟨hmem, hle⟩
      exact ⟨hmem, by linarith [hle]⟩
    · rintro ⟨hmem, hle⟩
      exact ⟨hmem, by linarith [hle]⟩

/-- Witness for C2 at a concrete input: on the P5 example series with a
3-day window, the boundary row for 2024-01-07 is in the filtered output. -/
theorem range_filter_spec_witness :
    dayRow 7 ∈ filteredData janSeries 3 :=
  ((range_filter_spec janSeries 3).2.2 (dayRow 10) (by decide) (dayRow 7)).mpr
    ⟨by decide, by decide⟩

/-! ## Claims about the RetryingFetcher -/

/-- Claim C3: a fetch whose first two attempts fail and whose third attempt
succeeds returns the successful payload after exactly two backoff delays of
1000ms and then 2000ms; a fetch whose three attempts all fail ends in the
fetch error after exactly the same two delays, with no delay performed
after the final failed attempt (in both source variants). -/
theorem retry_backoff_schedule (att : Nat → AttemptResult) (name e1 e2 : String)
    (h0 : att 0 = .failure e1) (h1 : att 1 = .failure e2) :
    (∀ p, att 2 = .success p →
      fetchWithRetry att name = (.ok p, [1000, 2000]))
    ∧ ∀ e3, att 2 = .failure e3 →
        fetchWithRetry att name =
          (.error ("Failed to fetch " ++ name ++ " after " ++ toString maxRetries
            ++ " attempts."), [1000, 2000])
        ∧ fetchWithRetryV2 att name = (.error e3, [1000, 2000]) := by
  constructor
  · intro p h2
    simp [fetchWithRetry, fetchLoop, maxRetries, initialDelayMs, h0, h1, h2]
  · intro e3 h2
    constructor <;>
      simp [fetchWithRetry, fetchWithRetryV2, fetchLoop, maxRetries, initialDelayMs,
        h0, h1, h2]

/-- Witness for C3 at a concrete attempt schedule: two failures followed by
a success return the payload after delays of 1000ms and 2000ms. -/
theorem retry_backoff_schedule_witness :
    fetchWithRetry
      (fun i => if i = 0 then .failure "timeout" else
        if i = 1 then .failure "HTTP Error 502: Bad Gateway" else .success "payload")
      "Orders" = (.ok "payload", [1000, 2000]) :=
  (retry_backoff_schedule _ "Orders" "timeout" "HTTP Error 502: Bad Gateway"
    rfl rfl).1 "payload" rfl

/-- Claim C4 as stated is false: two exhausted runs whose attempts carried
different underlying transport errors throw the very same error, whose
message contains no fragment of the underlying "HTTP Error 500" detail —
the underlying error detail is not preserved in the thrown error. -/
theorem fetch_error_detail_counterexample :
    fetchWithRetry (fun _ => .failure "HTTP Error 500: Internal Server Error") "Orders"
      = fetchWithRetry (fun _ => .failure "HTTP Error 404: Not Found") "Orders"
    ∧ (fetchWithRetry (fun _ => .failure "HTTP Error 500: Internal Server Error")
        "Orders").1 = .error "Failed to fetch Orders after 3 attempts."
    ∧ ¬ "500".data <:+: "Failed to fetch Orders after 3 attempts.".data :=
  ⟨rfl, rfl, by decide⟩

/-- Claim C4 (amended): on exhausting all attempts the App.jsx variant
fails with an error identifying the resource label and the attempt count
but not the underlying transport/status detail (that detail is only logged
per attempt), while the part_000 variant rethrows the final attempt's
underlying error, preserving its detail but not the label or count. -/
theorem fetch_error_content (att : Nat → AttemptResult) (name : String)
    (e : Nat → String) (h : ∀ i, att i = .failure (e i)) :
    fetchWithRetry att name =
      (.error ("Failed to fetch " ++ name ++ " after " ++ toString maxRetries
        ++ " attempts."), [1000, 2000])
    ∧ fetchWithRetryV2 att name = (.error (e 2), [1000, 2000]) := by
  constructor <;>
    simp [fetchWithRetry, fetchWithRetryV2, fetchLoop, maxRetries, initialDelayMs,
      h 0, h 1, h 2]

/-- Witness for C4 (amended) at a concrete failing schedule. -/
theorem fetch_error_content_witness :
    fetchWithRetry (fun _ => .failure "HTTP Error 500: Internal Server Error") "Orders"
      = (.error "Failed to fetch Orders after 3 attempts.", [1000, 2000])
    ∧ fetchWithRetryV2 (fun _ => .failure "HTTP Error 500: Internal Server Error") "Orders"
      = (.error "HTTP Error 500: Internal Server Error", [1000, 2000]) :=
  fetch_error_content _ "Orders" (fun _ => "HTTP Error 500: Internal Server Error")
    (fun _ => rfl)

/-! ## Claims about the CsvRecordParser -/

/-- Claim C5: the CSV parser (a total function, so it never fails or
throws, degrading row by row) yields an empty sequence for an empty input
and for any input with fewer than two lines after trimming; and on the P6
input it yields exactly the two well-formed records — the one-field
`badrow` line and the empty-timestamp line are dropped and the non-numeric
value is coerced to 0. -/
theorem parse_csv_robustness :
    parseCSV "header\n\"2024-01-01T00:00:00Z\",\"5\"\nbadrow\n,\n2024-01-01T01:00:00Z,notanumber\n"
      = [{ timestamp := "2024-01-01T00:00:00Z", value := 5 },
         { timestamp := "2024-01-01T01:00:00Z", value := 0 }]
    ∧ parseCSV "" = []
    ∧ ∀ s : String, (jsSplit '\n' (jsTrim s.data)).length < 2 → parseCSV s = [] := by
  refine ⟨by decide, rfl, ?_⟩
  intro s h
  by_cases hs : s = ""
  · simp [parseCSV, hs]
  · simp [parseCSV, hs, h]

/-- Witness for C5 at a concrete headerless input: a single line parses to
no records. -/
theorem parse_csv_robustness_witness : parseCSV "timestamp,value" = [] :=
  parse_csv_robustness.2.2 "timestamp,value" (by decide)

/-! ## Claims about the MultiSeriesAggregator -/

theorem assocFind_cons {β : Type} (x : String × β) (l : List (String × β)) (k : String) :
    assocFind (x :: l) k = if x.1 = k then some x.2 else assocFind l k := by
  by_cases h : x.1 = k <;> simp [assocFind, List.find?, h]

theorem addVal_cons (p : String × Int) (t : List (String × Int)) (k : String) (v : Int) :
    addVal (p :: t) k v = (if p.1 = k then (p.1, p.2 + v) else p) :: addVal t k v := rfl

theorem assocFind_addVal_self (l : List (String × Int)) (k : String) (v : Int) :
    assocFind (addVal l k v) k = (assocFind l k).map (· + v) := by
  induction l with
  | nil => rfl
  | cons p t ih =>
    by_cases hpk : p.1 = k
    · simp [addVal_cons, assocFind_cons, hpk]
    · simp [addVal_cons, assocFind_cons, hpk, ih]

theorem assocFind_addVal_ne (l : List (String × Int)) {k k' : String} (h : k ≠ k')
    (v : Int) : assocFind (addVal l k' v) k = assocFind l k := by
  induction l with
  | nil => rfl
  | cons p t ih =>
    by_cases hpq : p.1 = k'
    · have hpk : p.1 ≠ k := fun hh => h (hh ▸ hpq)
      have hkk : k' ≠ k := fun hh => h hh.symm
      simp [addVal_cons, assocFind_cons, hpq, hpk, hkk, ih]
    · by_cases hpk : p.1 = k
      · simp [addVal_cons, assocFind_cons, hpq, hpk, h]
      · simp [addVal_cons, assocFind_cons, hpq, hpk, ih]

theorem addVal_addVal (l : List (String × Int)) (k : String) (a b : Int) :
    addVal (addVal l k a) k b = addVal (addVal l k b) k a := by
  induction l with
  | nil => rfl
  | cons p t ih =>
    by_cases hp : p.1 = k
    · simp only [addVal, List.map_cons] at ih ⊢
      simp [hp, ih]
      omega
    · simp only [addVal, List.map_cons] at ih ⊢
      simp [hp, ih]

/-- Every configured source key starts at zero in a freshly created row. -/
theorem assocFind_initValues {key : String} (hkey : key ∈ allKeys) :
    assocFind initValues key = some 0 := by
  simp [allKeys] at hkey
  rcases hkey with rfl | rfl | rfl | rfl <;> decide

/-- Inversion for a successful bucketing: the timestamp parses, and the
bucket's sort key is the truncated instant's epoch value. -/
theorem getHourlyKey_sortTime {ts : List Char} {b : String × Int}
    (h : getHourlyKey ts = some b) :
    ∃ d, isoParse ts = some d ∧ toEpoch (truncHour d) = b.2 := by
  unfold getHourlyKey at h
  cases hp : isoParse ts with
  | none => rw [hp] at h; exact absurd h (by simp)
  | some d =>
    rw [hp] at h
    simp only [Option.some.injEq] at h
    exact ⟨d, rfl, congrArg Prod.snd h⟩

/-- Claim C6: two records of the same source whose timestamps land in the
same hour bucket produce a master series whose single row carries the sum
of both values for that source, and the series is the same whichever of
the two records arrives first. -/
theorem sum_invariant (key : String) (hkey : key ∈ allKeys) (r1 r2 : RawRecord)
    (b : String × Int)
    (h1 : getHourlyKey r1.timestamp.data = some b)
    (h2 : getHourlyKey r2.timestamp.data = some b) :
    processAllFiles [(key, [r1, r2])] = processAllFiles [(key, [r2, r1])]
    ∧ ∃ row, processAllFiles [(key, [r1, r2])] = [row]
        ∧ assocFind row.values key = some (r1.value + r2.value) := by
  obtain ⟨d1, hp1, he1⟩ := getHourlyKey_sortTime h1
  obtain ⟨d2, hp2, he2⟩ := getHourlyKey_sortTime h2
  have e12 : aggregateAll [(key, [r1, r2])] =
      [(b.1, { hour := b.1, sortTime := b.2,
               values := addVal (addVal initValues key r1.value) key r2.value })] := by
    simp [aggregateAll, processRecord, upsertRow, upsertInto, hp1, hp2, h1, h2, he1, he2,
      mapFind, assocFind, mapUpdate, assocReplace, List.find?]
  have e21 : aggregateAll [(key, [r2, r1])] =
      [(b.1, { hour := b.1, sortTime := b.2,
               values := addVal (addVal initValues key r2.value) key r1.value })] := by
    simp [aggregateAll, processRecord, upsertRow, upsertInto, hp1, hp2, h1, h2, he1, he2,
      mapFind, assocFind, mapUpdate, assocReplace, List.find?]
  refine ⟨?_, ?_⟩
  · simp [processAllFiles, e12, e21, addVal_addVal]
  · refine ⟨(⟨b.1, b.2, addVal (addVal initValues key r1.value) key r2.value⟩ :
      HourlyRow), ?_, ?_⟩
    · simp [processAllFiles, e12]
    · rw [assocFind_addVal_self, assocFind_addVal_self, assocFind_initValues hkey]
      simp [Int.zero_add]

/-- Witness for C6: two concrete orders records in the 10:00 hour of
2024-06-01 are summed to 7 + 3 in a single row, in either arrival order. -/
theorem sum_invariant_witness :
    processAllFiles [("orders", [⟨"2024-06-01T10:15:00Z", 7⟩, ⟨"2024-06-01T10:50:00Z", 3⟩])]
      = processAllFiles [("orders", [⟨"2024-06-01T10:50:00Z", 3⟩, ⟨"2024-06-01T10:15:00Z", 7⟩])]
    ∧ ∃ row,
      processAllFiles [("orders", [⟨"2024-06-01T10:15:00Z", 7⟩, ⟨"2024-06-01T10:50:00Z", 3⟩])]
        = [row] ∧ assocFind row.values "orders" = some (7 + 3) :=
  sum_invariant "orders" (by decide) ⟨"2024-06-01T10:15:00Z", 7⟩ ⟨"2024-06-01T10:50:00Z", 3⟩
    ("Jun-01 10:00", 1717236000000) (by decide) (by decide)

/-- The default-zero invariant on a hour map: every stored row has a
defined counter for every configured source key. -/
def hasAllKeys (m : HourMap) : Prop :=
  ∀ p ∈ m, ∀ k ∈ allKeys, (assocFind p.2.values k).isSome

theorem foldl_preserve {α σ : Type} (P : σ → Prop) (f : σ → α → σ)
    (hf : ∀ s a, P s → P (f s a)) : ∀ (l : List α) (s : σ), P s → P (l.foldl f s)
  | [], _, hs => hs
  | a :: l, s, hs => foldl_preserve P f hf l (f s a) (hf s a hs)

theorem isSome_addVal (l : List (String × Int)) (key k : String) (v : Int)
    (h : (assocFind l k).isSome) : (assocFind (addVal l key v) k).isSome := by
  by_cases hk : k = key
  · subst hk
    rw [assocFind_addVal_self]
    simpa using h
  · rw [assocFind_addVal_ne l hk]
    exact h

theorem mapFind_mem {m : HourMap} {k : String} {row : HourlyRow}
    (h : mapFind m k = some row) : ∃ q ∈ m, q.2 = row ∧ q.1 = k := by
  unfold mapFind assocFind at h
  cases hf : List.find? (fun p => p.1 = k) m with
  | none => rw [hf] at h; exact absurd h (by simp)
  | some q =>
    rw [hf] at h
    simp only [Option.some.injEq] at h
    exact ⟨q, List.mem_of_find?_eq_some hf, h, by simpa using List.find?_some hf⟩

theorem upsertInto_hasAllKeys (m1 : HourMap) (key hourlyKey : String) (v : Int)
    (hm1 : hasAllKeys m1) : hasAllKeys (upsertInto m1 key hourlyKey v) := by
  unfold upsertInto
  split
  · exact hm1
  · rename_i currentHour hfind
    intro p hp k hk
    simp only [mapUpdate, assocReplace] at hp
    obtain ⟨q, hq, hqe⟩ := List.mem_map.mp hp
    by_cases hq1 : q.1 = hourlyKey
    · rw [if_pos hq1] at hqe
      obtain ⟨q', hq'mem, hq'2, hq'1⟩ := mapFind_mem hfind
      have hcur := hm1 q' hq'mem k hk
      rw [hq'2] at hcur
      rw [← hqe]
      exact isSome_addVal _ _ _ _ hcur
    · rw [if_neg hq1] at hqe
      rw [← hqe]
      exact hm1 q hq k hk

theorem upsertRow_hasAllKeys (m : HourMap) (key hourlyKey : String) (sortTime : Int)
    (v : Int) (hm : hasAllKeys m) : hasAllKeys (upsertRow m key hourlyKey sortTime v) := by
  have hm1 : hasAllKeys
      (if (mapFind m hourlyKey).isSome then m
       else m ++ [(hourlyKey,
         { hour := hourlyKey, sortTime := sortTime, values := initValues })]) := by
    split
    · exact hm
    · intro p hp k hk
      rcases List.mem_append.mp hp with h | h
      · exact hm p h k hk
      · rw [List.mem_singleton.mp h]
        simp [assocFind_initValues hk]
  exact upsertInto_hasAllKeys _ key hourlyKey v hm1

theorem aggregateAll_hasAllKeys (sources : List (String × List RawRecord)) :
    hasAllKeys (aggregateAll sources) := by
  unfold aggregateAll
  refine foldl_preserve hasAllKeys _ ?_ sources [] (by intro p hp; cases hp)
  intro m kr hm
  refine foldl_preserve hasAllKeys _ ?_ kr.2 m hm
  intro m' item hm'
  unfold processRecord
  cases hp : isoParse item.timestamp.data with
  | none => exact hm'
  | some d =>
    simp only [getHourlyKey, hp]
    exact upsertRow_hasAllKeys _ _ _ _ _ hm'

/-- Claim C7: every row of the finalized master series carries a defined
numeric entry for every configured source key (orders, labels, packers,
pickers) — 0 when the source contributed nothing, never an absent key. -/
theorem default_zero_invariant (sources : List (String × List RawRecord))
    (row : HourlyRow) (hrow : row ∈ processAllFiles sources)
    (key : String) (hkey : key ∈ allKeys) :
    ∃ v : Int, assocFind row.values key = some v := by
  have hmem : row ∈ (aggregateAll sources).map Prod.snd :=
    ((List.perm_insertionSort rowLE _).mem_iff).mp hrow
  obtain ⟨p, hp, hpe⟩ := List.mem_map.mp hmem
  have h := aggregateAll_hasAllKeys sources p hp key hkey
  rw [hpe] at h
  exact Option.isSome_iff_exists.mp h

/-- Witness for C7: in the end-to-end scenario's single row, the source
`packers` (which contributed no record) still has a defined entry. -/
theorem default_zero_invariant_witness :
    ∃ v : Int,
      assocFind
        ({ hour := "Jun-01 10:00", sortTime := 1717236000000,
           values := [("orders", 7), ("labels", 3), ("packers", 0), ("pickers", 0)] } :
          HourlyRow).values "packers" = some v :=
  default_zero_invariant
    [("orders", [⟨"2024-06-01T10:15:00Z", 7⟩]), ("labels", [⟨"2024-06-01T10:50:00Z", 3⟩])]
    _ (by decide) "packers" (by decide)

/-! ## Claims about the StatsEngine -/

theorem hourlyEfficiency_foldl (data : List HourlyRow) : ∀ acc : List Rat,
    data.foldl (fun acc item =>
        let labor := laborOf item
        if labor > 0 then acc ++ [(labelsOf item : Rat) / (labor : Rat)] else acc) acc
      = acc ++ (data.filter (fun item => laborOf item > 0)).map
          (fun item => (labelsOf item : Rat) / (laborOf item : Rat)) := by
  induction data with
  | nil => intro acc; simp
  | cons item t ih =>
    intro acc
    by_cases h : laborOf item > 0
    · simp [List.filter_cons, h, ih]
    · simp [List.filter_cons, h, ih]

/-- P7 example row with zero labor (no packers or pickers) and ten labels. -/
def effRow1 : HourlyRow :=
  { hour := "Nov-29 10:00",
    sortTime := toEpoch
      { year := 2024, month := 11, day := 29, hour := 10, minute := 0, second := 0 },
    values := [("orders", 0), ("labels", 10), ("packers", 0), ("pickers", 0)] }

/-- P7 example row with 2 packers, 3 pickers and ten labels. -/
def effRow2 : HourlyRow :=
  { hour := "Nov-29 11:00",
    sortTime := toEpoch
      { year := 2024, month := 11, day := 29, hour := 11, minute := 0, second := 0 },
    values := [("orders", 0), ("labels", 10), ("packers", 2), ("pickers", 3)] }

/-- Claim C8: the efficiency series contains exactly one `labels / labor`
ratio for each row whose `packers + pickers` is positive, in row order, so
zero-labor rows are excluded from its min/max/average rather than counted
as 0; on the P7 two-row example the efficiency statistic comes from the
second row alone and its average (and min and max) is 10 / 5 = 2. -/
theorem efficiency_exclusion :
    (∀ data : List HourlyRow, hourlyEfficiency data =
      (data.filter (fun item => laborOf item > 0)).map
        (fun item => (labelsOf item : Rat) / (laborOf item : Rat)))
    ∧ (summaryAggregates [effRow1, effRow2]).labelsPerLabor =
        { min := 2, max := 2, avg := 2 } := by
  constructor
  · intro data
    simpa using hourlyEfficiency_foldl data []
  · have he : hourlyEfficiency [effRow1, effRow2] = [(10 : Rat) / (5 : Rat)] := by
      simp [hourlyEfficiency, laborOf, labelsOf, rowGet, assocFind, List.find?,
        effRow1, effRow2]
      norm_num
    simp [summaryAggregates, he, getStats]
    norm_num

/-! ## Claims about the master series shape -/

theorem mapFind_isSome_iff (m : HourMap) (k : String) :
    (mapFind m k).isSome ↔ k ∈ m.map Prod.fst := by
  unfold mapFind assocFind
  cases hf : List.find? (fun p => p.1 = k) m with
  | none =>
    rw [List.find?_eq_none] at hf
    simp only [Option.isSome_none, Bool.false_eq_true, false_iff, List.mem_map]
    rintro ⟨x, hx, rfl⟩
    have := hf x hx
    simp at this
  | some q =>
    have hq : q.1 = k := by simpa using List.find?_some hf
    have hqm := List.mem_of_find?_eq_some hf
    simp only [Option.isSome_some, List.mem_map, true_iff]
    exact ⟨q, hqm, hq⟩

theorem mapUpdate_keys (m : HourMap) (k : String) (row : HourlyRow) :
    (mapUpdate m k row).map Prod.fst = m.map Prod.fst := by
  unfold mapUpdate assocReplace
  rw [List.map_map]
  apply List.map_congr_left
  intro p _
  by_cases h : p.1 = k <;> simp [h]

/-- The structural invariant of the hour map: bucket labels are pairwise
distinct, and each stored row's `hour` field equals its map key. -/
def goodMap (m : HourMap) : Prop :=
  (m.map Prod.fst).Nodup ∧ ∀ p ∈ m, p.2.hour = p.1

theorem upsertInto_goodMap (m1 : HourMap) (key hourlyKey : String) (v : Int)
    (hm1 : goodMap m1) : goodMap (upsertInto m1 key hourlyKey v) := by
  unfold upsertInto
  split
  · exact hm1
  · rename_i currentHour hfind
    refine ⟨by rw [mapUpdate_keys]; exact hm1.1, ?_⟩
    intro p hp
    simp only [mapUpdate, assocReplace] at hp
    obtain ⟨q, hq, hqe⟩ := List.mem_map.mp hp
    by_cases hq1 : q.1 = hourlyKey
    · rw [if_pos hq1] at hqe
      obtain ⟨q', hq'mem, hq'2, hq'1⟩ := mapFind_mem hfind
      have hch : currentHour.hour = hourlyKey := by
        rw [← hq'2, hm1.2 q' hq'mem, hq'1]
      rw [← hqe]
      exact hch
    · rw [if_neg hq1] at hqe
      rw [← hqe]
      exact hm1.2 q hq

theorem upsertRow_goodMap (m : HourMap) (key hourlyKey : String) (sortTime v : Int)
    (hm : goodMap m) : goodMap (upsertRow m key hourlyKey sortTime v) := by
  have hm1 : goodMap
      (if (mapFind m hourlyKey).isSome then m
       else m ++ [(hourlyKey,
         { hour := hourlyKey, sortTime := sortTime, values := initValues })]) := by
    split
    · exact hm
    · rename_i hnf
      have hnotin : hourlyKey ∉ m.map Prod.fst := fun hin =>
        hnf ((mapFind_isSome_iff m hourlyKey).mpr hin)
      constructor
      · rw [List.map_append]
        simp only [List.map_cons, List.map_nil]
        exact List.nodup_append.mpr ⟨hm.1, List.nodup_singleton _,
          by simpa [List.disjoint_singleton] using hnotin⟩
      · intro p hp
        rcases List.mem_append.mp hp with h | h
        · exact hm.2 p h
        · rw [List.mem_singleton.mp h]
  exact upsertInto_goodMap _ key hourlyKey v hm1

theorem processRecord_goodMap (m : HourMap) (key : String) (item : RawRecord)
    (hm : goodMap m) : goodMap (processRecord m key item) := by
  unfold processRecord
  cases hp : isoParse item.timestamp.data with
  | none => exact hm
  | some d =>
    simp only [getHourlyKey, hp]
    exact upsertRow_goodMap _ _ _ _ _ hm

theorem aggregateAll_goodMap (sources : List (String × List RawRecord)) :
    goodMap (aggregateAll sources) := by
  unfold aggregateAll
  refine foldl_preserve goodMap _ ?_ sources [] ⟨List.nodup_nil, by intro p hp; cases hp⟩
  intro m kr hm
  exact foldl_preserve goodMap _ (fun m' item hm' => processRecord_goodMap m' kr.1 item hm')
    kr.2 m hm

theorem upsertInto_keys (m1 : HourMap) (key hourlyKey : String) (v : Int) :
    (upsertInto m1 key hourlyKey v).map Prod.fst = m1.map Prod.fst := by
  unfold upsertInto
  split
  · rfl
  · exact mapUpdate_keys _ _ _

theorem upsertRow_keys (m : HourMap) (key hourlyKey : String) (st v : Int) (l : String) :
    l ∈ (upsertRow m key hourlyKey st v).map Prod.fst ↔
      l ∈ m.map Prod.fst ∨ l = hourlyKey := by
  unfold upsertRow
  rw [upsertInto_keys]
  split
  · rename_i hfound
    have hk : hourlyKey ∈ m.map Prod.fst := (mapFind_isSome_iff m hourlyKey).mp hfound
    constructor
    · exact fun h => Or.inl h
    · rintro (h | rfl)
      · exact h
      · exact hk
  · simp [List.mem_append]

theorem processRecord_keys (m : HourMap) (key : String) (item : RawRecord) (l : String) :
    l ∈ (processRecord m key item).map Prod.fst ↔
      l ∈ m.map Prod.fst ∨ (getHourlyKey item.timestamp.data).map Prod.fst = some l := by
  unfold processRecord
  cases hp : isoParse item.timestamp.data with
  | none => simp [getHourlyKey, hp]
  | some d =>
    simp only [getHourlyKey, hp, Option.map_some']
    rw [upsertRow_keys]
    simp [eq_comm]

theorem foldRecords_keys (key : String) (recs : List RawRecord) (l : String) :
    ∀ m : HourMap,
      (l ∈ (recs.foldl (fun m item => processRecord m key item) m).map Prod.fst ↔
        l ∈ m.map Prod.fst ∨
          ∃ rec ∈ recs, (getHourlyKey rec.timestamp.data).map Prod.fst = some l) := by
  induction recs with
  | nil => intro m; simp
  | cons r t ih =>
    intro m
    simp only [List.foldl_cons]
    rw [ih, processRecord_keys]
    simp only [List.exists_mem_cons_iff]
    exact or_assoc

theorem aggregateAll_keys (sources : List (String × List RawRecord)) (l : String) :
    l ∈ (aggregateAll sources).map Prod.fst ↔
      ∃ kr ∈ sources, ∃ rec ∈ kr.2,
        (getHourlyKey rec.timestamp.data).map Prod.fst = some l := by
  have hmain : ∀ m : HourMap,
      (l ∈ (sources.foldl
          (fun m kr => kr.2.foldl (fun m item => processRecord m kr.1 item) m) m).map
          Prod.fst ↔
        l ∈ m.map Prod.fst ∨ ∃ kr ∈ sources, ∃ rec ∈ kr.2,
          (getHourlyKey rec.timestamp.data).map Prod.fst = some l) := by
    induction sources with
    | nil => intro m; simp
    | cons kr t ih =>
      intro m
      simp only [List.foldl_cons]
      rw [ih, foldRecords_keys]
      simp only [List.exists_mem_cons_iff]
      exact or_assoc
  simpa [aggregateAll] using hmain []

/-- Claim C9 as stated is false: two records whose timestamps lie in the
10:00 hour of 2023-06-01 and 2024-06-01 occupy two distinct hour buckets
(their truncated instants differ by a year), yet the master series holds a
single row, because rows are keyed by the year-less `"MMM-DD HH:00"`
label. -/
theorem year_collision_counterexample :
    (processAllFiles [("orders",
        [⟨"2023-06-01T10:00:00Z", 1⟩, ⟨"2024-06-01T10:00:00Z", 2⟩])]).length = 1
    ∧ (getHourlyKey "2023-06-01T10:00:00Z".data).map Prod.snd ≠
        (getHourlyKey "2024-06-01T10:00:00Z".data).map Prod.snd := by
  constructor
  · decide
  · decide

/-- Claim C9 (amended): the finalized master series is non-decreasing in
`sortKey` on all adjacent pairs, and contains exactly one row per distinct
bucket *label* appearing in any source — labels are not year-qualified, so
hour buckets a year apart share one row rather than getting one row each. -/
theorem master_series_shape (sources : List (String × List RawRecord)) :
    (processAllFiles sources).Sorted rowLE
    ∧ ((processAllFiles sources).map HourlyRow.hour).Nodup
    ∧ ∀ lbl, (∃ row ∈ processAllFiles sources, row.hour = lbl) ↔
        ∃ kr ∈ sources, ∃ rec ∈ kr.2,
          (getHourlyKey rec.timestamp.data).map Prod.fst = some lbl := by
  have hgood := aggregateAll_goodMap sources
  have hperm : List.Perm (processAllFiles sources) ((aggregateAll sources).map Prod.snd) :=
    List.perm_insertionSort rowLE _
  have hhours : ((aggregateAll sources).map Prod.snd).map HourlyRow.hour =
      (aggregateAll sources).map Prod.fst := by
    rw [List.map_map]
    exact List.map_congr_left (fun p hp => hgood.2 p hp)
  refine ⟨List.sorted_insertionSort rowLE _, ?_, ?_⟩
  · exact ((hperm.map HourlyRow.hour).nodup_iff).mpr (hhours ▸ hgood.1)
  · intro lbl
    have hstep : (∃ row ∈ processAllFiles sources, row.hour = lbl) ↔
        lbl ∈ (processAllFiles sources).map HourlyRow.hour := List.mem_map.symm
    rw [hstep, (hperm.map HourlyRow.hour).mem_iff, hhours]
    exact aggregateAll_keys sources lbl

/-! ## The implicit zero-peak edge case -/

theorem peaks_fst_default (days : List DayAgg) (h : ∀ d ∈ days, d.orders ≤ 0) :
    ∀ accL : PeakDay,
      (days.foldl peakStep ({ count := 0, date := "N/A" }, accL)).1 =
        { count := 0, date := "N/A" } := by
  induction days with
  | nil => intro accL; rfl
  | cons d t ih =>
    intro accL
    have hd := h d (List.mem_cons_self d t)
    have ht : ∀ x ∈ t, x.orders ≤ 0 := fun x hx => h x (List.mem_cons_of_mem d hx)
    have hno : ¬ d.orders > (0 : Int) := by omega
    simp only [List.foldl_cons, peakStep, hno, if_false]
    exact ih ht _

theorem peaks_snd_default (days : List DayAgg) (h : ∀ d ∈ days, d.labels ≤ 0) :
    ∀ accO : PeakDay,
      (days.foldl peakStep (accO, { count := 0, date := "N/A" })).2 =
        { count := 0, date := "N/A" } := by
  induction days with
  | nil => intro accO; rfl
  | cons d t ih =>
    intro accO
    have hd := h d (List.mem_cons_self d t)
    have ht : ∀ x ∈ t, x.labels ≤ 0 := fun x hx => h x (List.mem_cons_of_mem d hx)
    have hno : ¬ d.labels > (0 : Int) := by omega
    simp only [List.foldl_cons, peakStep, hno, if_false]
    exact ih ht _

/-- Claim C10: on a non-empty filtered series whose per-calendar-day sums
for a metric are all zero, the peak-day record for that metric stays at
`{count: 0, date: 'N/A'}`: the maximum is tracked with a strict `>`
against an initial count of 0, so a zero-sum day is never selected and the
placeholder date is reported even though rows exist in the window. -/
theorem zero_peak_na (data : List HourlyRow) (hne : data ≠ []) :
    ((∀ d ∈ dailyAggregates data, d.orders = 0) →
      (summaryAggregates data).maxDailyOrders = { count := 0, date := "N/A" })
    ∧ ((∀ d ∈ dailyAggregates data, d.labels = 0) →
      (summaryAggregates data).maxDailyLabels = { count := 0, date := "N/A" }) := by
  have hemp : ¬ (data.isEmpty = true) := by
    cases data with
    | nil => exact absurd rfl hne
    | cons a t => simp [List.isEmpty]
  constructor
  · intro h
    unfold summaryAggregates
    rw [if_neg hemp]
    exact peaks_fst_default (dailyAggregates data)
      (fun d hd => le_of_eq (h d hd)) _
  · intro h
    unfold summaryAggregates
    rw [if_neg hemp]
    exact peaks_snd_default (dailyAggregates data)
      (fun d hd => le_of_eq (h d hd)) _

/-- A row on 1970-01-02 whose counters are all zero. -/
def zeroRow : HourlyRow :=
  { hour := "Jan-02 00:00", sortTime := 86400000, values := initValues }

/-- Witness for C10: a single all-zero row on 1970-01-02 yields the
`'N/A'` peak-day placeholders for both metrics. -/
theorem zero_peak_na_witness :
    (summaryAggregates [zeroRow]).maxDailyOrders = { count := 0, date := "N/A" }
    ∧ (summaryAggregates [zeroRow]).maxDailyLabels = { count := 0, date := "N/A" } :=
  ⟨(zero_peak_na [zeroRow] (by decide)).1 (by decide),
   (zero_peak_na [zeroRow] (by decide)).2 (by decide)⟩

end BFCM
